import Mathlib

/-!
Shallow embedding of the bird-sql-agent-submission repository
(`utils.py`, `evaluate.py`, `agent_system.py`).

Python strings are modelled as `List Char`; Python dicts built by the code
are modelled as insertion-ordered association lists with overwrite-on-rekey
semantics; Python exceptions are modelled with `Except`; the sqlite layer,
the LLM backend and the file system are abstracted as explicit inputs
(oracles / database models) to the embedded functions.
-/

namespace BirdSql

abbrev Str := List Char

/-- Python whitespace class (ASCII fragment of `\s` / `str.strip`). -/
def pyWS (c : Char) : Bool :=
  c = ' ' || c = '\t' || c = '\n' || c = '\r' || c = '\x0b' || c = '\x0c'

/-- Leading-whitespace trim (`str.lstrip`). -/
def ltrim (s : Str) : Str := s.dropWhile pyWS

/-- Trailing-whitespace trim (`str.rstrip`). -/
def rtrim (s : Str) : Str := (s.reverse.dropWhile pyWS).reverse

/-- Python `str.strip()`. -/
def pyStrip (s : Str) : Str := rtrim (ltrim s)

/-- Python `str.lower()` (ASCII fragment). -/
def lower (s : Str) : Str := s.map Char.toLower

/-- Python `str.upper()` (ASCII fragment). -/
def upper (s : Str) : Str := s.map Char.toUpper

/-- Split `s` at the first occurrence of `pat`: returns `(before, after)`
with `s = before ++ pat ++ after` and no occurrence of `pat` starting
inside `before ++ pat` other than the one exhibited.  This is the
leftmost-match discipline of `re.search` scanning / Python `in`. -/
def splitFirst (pat : Str) : Str → Option (Str × Str)
  | [] => none
  | c :: rest =>
    if pat.isPrefixOf (c :: rest) then some ([], (c :: rest).drop pat.length)
    else
      match splitFirst pat rest with
      | some (b, a) => some (c :: b, a)
      | none => none

/-- Python substring test `pat in s`. -/
def containsSub (s pat : Str) : Bool := (splitFirst pat s).isSome

def fenceOpen : Str := "```sql".toList

def fenceClose : Str := "```".toList

def selectKw : Str := "SELECT".toList

/-- `re.search(r"(backtick fence sql)\s*(.*?)\s*(backtick fence)", text, re.DOTALL)`
followed by `.group(1).strip()` in `utils.extract_sql`.  The leftmost match
anchors at the first SQL fence opener that is followed (anywhere later) by a
closing fence; the lazy group together with the surrounding greedy `\s*` and
the final `.strip()` yields exactly the stripped text between the opener and
the first subsequent closing fence. -/
def extract_fence (text : Str) : Option Str :=
  match splitFirst fenceOpen text with
  | none => none
  | some (_, rest) =>
    match splitFirst fenceClose rest with
    | none => none
    | some (content, _) => some (pyStrip content)

/-- Python `text.split('\n')` (keeps empty pieces, always non-empty result). -/
def splitNL : Str → List Str
  | [] => [[]]
  | c :: rest =>
    if c = '\n' then [] :: splitNL rest
    else
      match splitNL rest with
      | l :: ls => (c :: l) :: ls
      | [] => [[c]]

/-- The keyword-scan loop of `utils.extract_sql`: strip each line, start
accumulating at the first line whose uppercased form starts with SELECT,
stop (inclusive) at a line ending in a semicolon. -/
def scanSql : List Str → Bool → List Str
  | [], _ => []
  | l :: rest, insql =>
    let t := pyStrip l
    if selectKw.isPrefixOf (upper t) || insql then
      if [';'].isSuffixOf t then [t] else t :: scanSql rest true
    else scanSql rest insql

/-- Python `" ".join(lines)`. -/
def joinSpace (ls : List Str) : Str := List.intercalate [' '] ls

/-- `utils.extract_sql`: fenced block first, then keyword scan, then the
whole text as last resort. -/
def extract_sql (text : Str) : Str :=
  match extract_fence text with
  | some sql => sql
  | none =>
    let ls := scanSql (splitNL text) false
    if ls.isEmpty then text else joinSpace ls

/-- Opaque scalar cell values produced by sqlite. -/
inductive Val where
  | int (n : Int)
  | text (s : Str)
  | null
deriving DecidableEq

/-- Python `str(value)` on a cell. -/
def Val.toStr : Val → Str
  | .int n => (toString n).toList
  | .text s => s
  | .null => "None".toList

abbrev Row := List Val

/-- The tagged result shape returned by `utils.execute_query`: either
`{"results": ..., "column_names": ...}` or `{"error": ...}`. -/
inductive ExecResult where
  | ok (results : List Row) (column_names : List Str)
  | err (msg : Str)
deriving DecidableEq

/-- `evaluate.compare_results`. -/
def compare_results (gold pred : ExecResult) : Bool :=
  match gold, pred with
  | .err _, _ => false
  | .ok _ _, .err _ => false
  | .ok gold_data gold_cols, .ok pred_data pred_cols =>
    if gold_cols.length ≠ pred_cols.length then
      let gold_flat : Finset Str := (gold_data.flatMap (fun r => r.map Val.toStr)).toFinset
      let pred_flat : Finset Str := (pred_data.flatMap (fun r => r.map Val.toStr)).toFinset
      decide (gold_flat ⊆ pred_flat) || decide (pred_flat ⊆ gold_flat)
    else
      let gold_set : Finset Row := gold_data.toFinset
      let pred_set : Finset Row := pred_data.toFinset
      if gold_cols.toFinset = pred_cols.toFinset then
        decide (gold_set = pred_set)
      else
        decide (gold_set = pred_set) || decide (gold_set.card = pred_set.card)

/-- The test `kw in gold_query and kw not in pred_query` of
`evaluate.analyze_errors`, on the already-lowercased queries `p` and `g`. -/
def missTest (kw p g : Str) : Bool := containsSub g kw && !containsSub p kw

/-- The per-record error-type decision of `evaluate.analyze_errors`
(the `if/elif` chain): `hasError` models `"error" in item`; `pred` and
`gold` are the raw query strings, which the code lowercases before the
substring tests. -/
def classify (hasError : Bool) (pred gold : Str) : Str :=
  let p := lower pred
  let g := lower gold
  if hasError then "Execution Error".toList
  else if p.isEmpty then "Empty Query".toList
  else if missTest "join".toList p g then "Missing JOIN".toList
  else if missTest "where".toList p g then "Missing WHERE".toList
  else if missTest "group by".toList p g then "Missing GROUP BY".toList
  else if missTest "order by".toList p g then "Missing ORDER BY".toList
  else if missTest "strftime".toList p g then "Date Format Error".toList
  else if missTest "iif".toList p g then "Conditional Logic Error".toList
  else "Other".toList

/-- One foreign-key edge record built by `utils.load_schema`. -/
structure FK where
  table : Str
  column : Str
  ref_table : Str
  ref_column : Str
deriving DecidableEq

/-- One per-table descriptor built by `utils.load_schema`. -/
structure TableInfo where
  columns : List Str
  types : List Str
  sample_data : List Row
deriving DecidableEq

/-- The two kinds of values the `schema` dict of `utils.load_schema` can
hold: a table descriptor, or (under the key `"foreign_keys"`) the edge
list. -/
inductive SchemaVal where
  | table (info : TableInfo)
  | fks (edges : List FK)
deriving DecidableEq

def SchemaVal.isTable : SchemaVal → Bool
  | .table _ => true
  | .fks _ => false

abbrev Schema := List (Str × SchemaVal)

/-- Python dict assignment `d[k] = v`: overwrite in place when the key is
present (iteration order keeps the original position), append otherwise. -/
def dictInsert (k : Str) (v : SchemaVal) (d : Schema) : Schema :=
  if d.any (fun p => p.1 = k) then
    d.map (fun p => if p.1 = k then (k, v) else p)
  else d ++ [(k, v)]

/-- Python `d[k]` / `d.get(k)` on the schema dict (first binding). -/
def pyLookup (k : Str) : Schema → Option SchemaVal
  | [] => none
  | (k', v) :: rest => if k' = k then some v else pyLookup k rest

/-- One raw `PRAGMA foreign_key_list` row, restricted to the fields the
code reads (`fk[2]`, `fk[3]`, `fk[4]`); the `len(fk) >= 5` guards always
hold for well-formed pragma rows and are absorbed into this shape. -/
structure FKRaw where
  ref_table : Str
  column : Str
  ref_column : Str

/-- A table as seen through the sqlite introspection queries of
`utils.load_schema`: its name, its `PRAGMA table_info` (column name,
declared type) pairs, its rows, and its foreign-key pragma rows. -/
structure DBTable where
  name : Str
  cols : List (Str × Str)
  rows : List Row
  fk_rows : List FKRaw

/-- An abstract sqlite database: the `sqlite_master` table list in
iteration order. -/
structure DBModel where
  tables : List DBTable

def fkKey : Str := "foreign_keys".toList

/-- The foreign-key collection loop of `utils.load_schema`. -/
def collectFks (db : DBModel) : List FK :=
  db.tables.flatMap (fun t =>
    t.fk_rows.map (fun f => ⟨t.name, f.column, f.ref_table, f.ref_column⟩))

/-- `utils.load_schema`: per-table descriptors (sample rows capped by
`LIMIT 3`), then `schema["foreign_keys"] = foreign_keys`. -/
def load_schema (db : DBModel) : Schema :=
  let base := db.tables.foldl
    (fun d t => dictInsert t.name
      (.table ⟨t.cols.map Prod.fst, t.cols.map Prod.snd, t.rows.take 3⟩) d) []
  dictInsert fkKey (.fks (collectFks db)) base

/-- The column lines of `utils.format_schema`: a missing type (index past
`types`) renders as `unknown`. -/
def colLines : List Str → List Str → Str
  | [], _ => []
  | c :: cs, [] =>
    "  - ".toList ++ c ++ " (unknown)\n".toList ++ colLines cs []
  | c :: cs, t :: ts =>
    "  - ".toList ++ c ++ " (".toList ++ t ++ ")\n".toList ++ colLines cs ts

def joinCommaSp (ls : List Str) : Str := List.intercalate ", ".toList ls

/-- One sample row as `column=value` pairs: the code enumerates the row and
keeps index `i` only when `i < len(columns)`, i.e. a positional zip. -/
def renderRow (cols : List Str) (row : Row) : Str :=
  joinCommaSp (List.zipWith (fun c v => c ++ ['='] ++ Val.toStr v) cols row)

/-- The sample rows actually rendered for a table: the formatter slices
`sample_data[:2]`. -/
def sampleLines (info : TableInfo) : List Str :=
  (info.sample_data.take 2).map (fun r => "  ".toList ++ renderRow info.columns r ++ ['\n'])

def sampleSection (info : TableInfo) : Str :=
  if info.sample_data.isEmpty then []
  else "Sample data:\n".toList ++ (sampleLines info).flatten

def renderTable (name : Str) (info : TableInfo) : Str :=
  "Table: ".toList ++ name ++ "\nColumns:\n".toList
    ++ colLines info.columns info.types
    ++ sampleSection info ++ ['\n']

/-- The per-table loop of `utils.format_schema`; entries named
`foreign_keys` are skipped; a non-`foreign_keys` key bound to the edge
list would make the Python code fail with a TypeError, modelled as
`none`. -/
def formatTables : Schema → Option Str
  | [] => some []
  | (name, v) :: rest =>
    if name = fkKey then formatTables rest
    else
      match v with
      | .fks _ => none
      | .table info => (formatTables rest).map (fun r => renderTable name info ++ r)

def fkLine (fk : FK) : Str :=
  "  ".toList ++ fk.table ++ ['.'] ++ fk.column ++ " → ".toList
    ++ fk.ref_table ++ ['.'] ++ fk.ref_column ++ ['\n']

/-- The trailing foreign-key section of `utils.format_schema` (emitted only
when the key is present and the list non-empty). -/
def fkSection (schema : Schema) : Option Str :=
  match pyLookup fkKey schema with
  | none => some []
  | some (.table _) => none
  | some (.fks edges) =>
    if edges.isEmpty then some []
    else some ("Foreign Keys:\n".toList ++ (edges.map fkLine).flatten)

/-- `utils.format_schema`. -/
def format_schema (schema : Schema) : Option Str :=
  match formatTables schema, fkSection schema with
  | some t, some f => some ("DATABASE SCHEMA:\n".toList ++ t ++ f)
  | _, _ => none

inductive Role where
  | selector
  | decomposer
  | refiner
deriving DecidableEq

/-- The external collaborators of `agent_system.process_text_to_sql`: each
agent role is a function from the chat message (`initiate_chat`) to the
response text (`last_message["content"]`), and `exec` is
`utils.execute_query` against the fixed database path. -/
structure Oracle where
  selector : Str → Str
  decomposer : Str → Str
  refiner : Str → Str
  exec : Str → ExecResult

/-- `evidence_text`: the code uses the truthiness of `evidence`, modelled
by `none` for absent/empty evidence. -/
def evidenceText : Option Str → Str
  | some e => "\nRELEVANT KNOWLEDGE: ".toList ++ e
  | none => []

def selectorInput (question fs : Str) (ev : Option Str) : Str :=
  "Question: ".toList ++ question ++ evidenceText ev
    ++ "\n\nDatabase Schema:\n".toList ++ fs
    ++ "\n\nIdentify only the relevant tables and columns to answer this question.".toList

def decomposerInput (question : Str) (ev : Option Str) (selectorOutput : Str) : Str :=
  "Question: ".toList ++ question ++ evidenceText ev
    ++ "\n\nRelevant Schema Information:\n".toList ++ selectorOutput
    ++ "\n\nGenerate a SQL query to answer this question.".toList

def refinerInput (question : Str) (ev : Option Str) (fs initialSql : Str) : Str :=
  "Question: ".toList ++ question ++ evidenceText ev
    ++ "\n\nDatabase Schema:\n".toList ++ fs
    ++ "\n\nProposed SQL Query:\n".toList ++ initialSql
    ++ "\n\nValidate and fix any issues with this SQL query.".toList

def fixInput (errMsg question : Str) (ev : Option Str) (fs failedSql : Str) : Str :=
  "Error executing SQL: ".toList ++ errMsg
    ++ "\n\nQuestion: ".toList ++ question ++ evidenceText ev
    ++ "\n\nDatabase Schema:\n".toList ++ fs
    ++ "\n\nFailed SQL Query:\n".toList ++ failedSql
    ++ "\n\nPlease fix the query.".toList

/-- The Selector stage output of `process_text_to_sql`. -/
def selectorOut (o : Oracle) (q fs : Str) (ev : Option Str) : Str :=
  o.selector (selectorInput q fs ev)

/-- The Initial Candidate SQL extracted from the Decomposer response. -/
def initialSql (o : Oracle) (q fs : Str) (ev : Option Str) : Str :=
  extract_sql (o.decomposer (decomposerInput q ev (selectorOut o q fs ev)))

/-- The Final Candidate SQL extracted from the first Refiner response. -/
def refinedSql (o : Oracle) (q fs : Str) (ev : Option Str) : Str :=
  extract_sql (o.refiner (refinerInput q ev fs (initialSql o q fs ev)))

/-- The SQL extracted from the repair (second) Refiner response, given the
error message of the failed first execution. -/
def repairedSql (o : Oracle) (q fs : Str) (ev : Option Str) (msg : Str) : Str :=
  extract_sql (o.refiner (fixInput msg q ev fs (refinedSql o q fs ev)))

/-- `agent_system.process_text_to_sql`, instrumented with the ordered list
of generation-role invocations.  `fs` stands for the locally computed
`format_schema(load_schema(db_path))`.  When the executed Final Candidate
SQL errors, the Refiner is invoked once more with the error message and the
re-extracted SQL replaces `final_sql`; the repaired SQL's re-execution only
feeds a print and does not affect the returned value. -/
def process_text_to_sql (o : Oracle) (q fs : Str) (ev : Option Str) :
    Str × List Role :=
  let refiner_output := o.refiner (refinerInput q ev fs (initialSql o q fs ev))
  let final_sql := extract_sql refiner_output
  match o.exec final_sql with
  | .ok _ _ => (final_sql, [.selector, .decomposer, .refiner])
  | .err msg =>
    let fix_output := o.refiner (fixInput msg q ev fs final_sql)
    let fixed_sql := extract_sql fix_output
    (fixed_sql, [.selector, .decomposer, .refiner, .refiner])

/-- One item of the benchmark JSON, as read by `evaluate_on_benchmark`. -/
structure BatchItem where
  question : Str
  db_id : Str
  gold_sql : Str

/-- One entry of `results["details"]` in `evaluate.evaluate_on_benchmark`:
the success branch records the comparison outcome and the two result
strings; the except branch records the exception text with
`is_correct = False`. -/
structure Detail where
  question : Str
  db_id : Str
  gold_query : Str
  predicted_query : Str
  is_correct : Bool
  gold_results : Option Str
  pred_results : Option Str
  error : Option Str
deriving DecidableEq

def okDetail (it : BatchItem) (pred : Str) (c : Bool) (gr pr : Str) : Detail :=
  ⟨it.question, it.db_id, it.gold_sql, pred, c, some gr, some pr, none⟩

def errDetail (it : BatchItem) (pred : Str) (e : Str) : Detail :=
  ⟨it.question, it.db_id, it.gold_sql, pred, false, none, none, some e⟩

/-- The per-question loop of `evaluate.evaluate_on_benchmark` (lines
71-130).  `gen` is the call `process_text_to_sql(...)`, which sits outside
the `try` block: an exception there propagates and aborts the whole batch,
modelled by `Except.error`.  `body` is the `try` block (execute gold and
predicted SQL, compare, build the record strings): an exception there is
caught and recorded as a failure entry, and the loop continues. -/
def evaluateLoop (gen : BatchItem → Except Str Str)
    (body : BatchItem → Str → Except Str (Bool × Str × Str)) :
    List BatchItem → Except Str (List Detail)
  | [] => .ok []
  | it :: rest =>
    match gen it with
    | .error e => .error e
    | .ok pred =>
      let d := match body it pred with
        | .ok (c, gr, pr) => okDetail it pred c gr pr
        | .error e => errDetail it pred e
      match evaluateLoop gen body rest with
      | .ok ds => .ok (d :: ds)
      | .error e => .error e

/-! ## Theorems -/

/-- C4: for every pair of execution results, if either one is the error
variant, `compare_results` returns `false`; an errored side is always a
mismatch, never a distinct outcome. -/
theorem c4_error_is_mismatch (m : Str) (r : ExecResult) :
    compare_results (.err m) r = false ∧ compare_results r (.err m) = false := by
  cases r <;> exact ⟨rfl, rfl⟩

/-- C9: with differing column counts and a predicted result with zero rows,
`compare_results` returns `true` whatever the gold rows are, because the
empty flattened stringified value-set is a subset of every set. -/
theorem c9_empty_pred_accepted (gd : List Row) (gc pc : List Str)
    (h : gc.length ≠ pc.length) :
    compare_results (.ok gd gc) (.ok [] pc) = true := by
  simp [compare_results, h]

/-- Witness for `c9_empty_pred_accepted` at a concrete input. -/
theorem c9_empty_pred_accepted_witness :
    [['a']].length ≠ ([] : List Str).length ∧
    compare_results (.ok [[Val.null]] [['a']]) (.ok [] []) = true :=
  ⟨by decide, c9_empty_pred_accepted [[Val.null]] [['a']] [] (by decide)⟩

/-- C3: for non-error results with equally long column lists, equal
column-name sets force exact row-tuple-set equality, while differing
column-name sets accept row-tuple-set equality or mere equal
cardinality. -/
theorem c3_equal_width_comparison (gd pd : List Row) (gc pc : List Str)
    (hlen : gc.length = pc.length) :
    (gc.toFinset = pc.toFinset →
      (compare_results (.ok gd gc) (.ok pd pc) = true ↔
        gd.toFinset = pd.toFinset)) ∧
    (gc.toFinset ≠ pc.toFinset →
      (compare_results (.ok gd gc) (.ok pd pc) = true ↔
        (gd.toFinset = pd.toFinset ∨
          (gd.toFinset).card = (pd.toFinset).card))) := by
  constructor
  · intro hcol
    simp [compare_results, hlen, hcol]
  · intro hcol
    simp [compare_results, hlen, hcol]

/-- Witness for `c3_equal_width_comparison` at a concrete input. -/
theorem c3_equal_width_comparison_witness :
    [['a']].length = [['a']].length ∧
    compare_results (.ok [] [['a']]) (.ok [] [['a']]) = true :=
  ⟨rfl, ((c3_equal_width_comparison [] [] [['a']] [['a']] rfl).1 rfl).mpr rfl⟩

/-- C2: when the executor errors on the refined SQL (and also on the
repaired SQL), the pipeline invokes the Refiner exactly twice — the trace
records the selector, the decomposer, and two refiner calls — and returns
the SQL extracted from the second Refiner response, with no further
repair. -/
theorem c2_single_repair (o : Oracle) (q fs : Str) (ev : Option Str) (msg : Str)
    (h1 : o.exec (refinedSql o q fs ev) = .err msg)
    (_h2 : ∃ m2, o.exec (repairedSql o q fs ev msg) = .err m2) :
    process_text_to_sql o q fs ev =
      (repairedSql o q fs ev msg,
        [.selector, .decomposer, .refiner, .refiner]) ∧
    (process_text_to_sql o q fs ev).2.count .refiner = 2 := by
  have hshape : process_text_to_sql o q fs ev =
      match o.exec (refinedSql o q fs ev) with
      | .ok _ _ =>
        (refinedSql o q fs ev, [Role.selector, Role.decomposer, Role.refiner])
      | .err m =>
        (repairedSql o q fs ev m,
          [Role.selector, Role.decomposer, Role.refiner, Role.refiner]) := rfl
  have hmain : process_text_to_sql o q fs ev =
      (repairedSql o q fs ev msg,
        [Role.selector, Role.decomposer, Role.refiner, Role.refiner]) := by
    rw [hshape, h1]
  exact ⟨hmain, by rw [hmain]; rfl⟩

/-- A concrete oracle for the repair-loop witness: the executor always
errors and the agents return fixed fenced responses. -/
def c2Oracle : Oracle :=
  ⟨fun _ => "tables".toList,
   fun _ => "```sql\nSELECT 1\n```".toList,
   fun _ => "```sql\nSELECT 2\n```".toList,
   fun _ => .err "no such table".toList⟩

/-- Witness for `c2_single_repair` at a concrete oracle. -/
theorem c2_single_repair_witness :
    c2Oracle.exec (refinedSql c2Oracle [] [] none) = .err "no such table".toList ∧
    c2Oracle.exec (repairedSql c2Oracle [] [] none "no such table".toList) =
      .err "no such table".toList ∧
    process_text_to_sql c2Oracle [] [] none =
      (repairedSql c2Oracle [] [] none "no such table".toList,
        [.selector, .decomposer, .refiner, .refiner]) ∧
    (process_text_to_sql c2Oracle [] [] none).2.count .refiner = 2 :=
  ⟨rfl, rfl,
    (c2_single_repair c2Oracle [] [] none "no such table".toList rfl
      ⟨"no such table".toList, rfl⟩).1,
    (c2_single_repair c2Oracle [] [] none "no such table".toList rfl
      ⟨"no such table".toList, rfl⟩).2⟩

/-- A generation call that raises (`process_text_to_sql` throwing before
the try block of the batch loop). -/
def c1FailGen : BatchItem → Except Str Str := fun _ => .error "boom".toList

/-- A try-block body that succeeds. -/
def c1OkBody : BatchItem → Str → Except Str (Bool × Str × Str) :=
  fun _ _ => .ok (true, [], [])

def c1Item : BatchItem := ⟨"q".toList, "db".toList, "select 1".toList⟩

def c1Item2 : BatchItem := ⟨"q2".toList, "db".toList, "select 2".toList⟩

/-- C1 counterexample: an exception raised inside the generation pipeline
(`process_text_to_sql`, which sits outside the `try` block) is not caught:
the batch aborts with the exception instead of recording a failure entry
and continuing to the second question. -/
theorem c1_counterexample :
    evaluateLoop c1FailGen c1OkBody [c1Item, c1Item2] = .error "boom".toList := rfl

/-- C1 (amended): exceptions raised inside the `try` block (executing the
two queries, comparing, recording) are caught per-question: provided the
generation call itself does not raise, the batch always completes with one
entry per question, and an entry recorded through the except branch has
`is_correct = false`. -/
theorem c1_per_question_catch (gen : BatchItem → Except Str Str)
    (body : BatchItem → Str → Except Str (Bool × Str × Str))
    (items : List BatchItem)
    (h : ∀ it ∈ items, (gen it).isOk = true) :
    ∃ ds, evaluateLoop gen body items = .ok ds ∧
      ds.length = items.length ∧
      ∀ d ∈ ds, d.error.isSome = true → d.is_correct = false := by
  induction items with
  | nil => exact ⟨[], rfl, rfl, by intro d hd; cases hd⟩
  | cons it rest ih =>
    have hit : (gen it).isOk = true := h it (List.mem_cons_self it rest)
    obtain ⟨ds, hds, hlen, hall⟩ :=
      ih (fun i hi => h i (List.mem_cons_of_mem it hi))
    cases hgen : gen it with
    | error e => rw [hgen] at hit; cases hit
    | ok pred =>
      refine ⟨(match body it pred with
        | .ok (c, gr, pr) => okDetail it pred c gr pr
        | .error e => errDetail it pred e) :: ds, ?_, ?_, ?_⟩
      · simp [evaluateLoop, hgen, hds]
      · simp [hlen]
      · intro d hd herr
        rcases List.mem_cons.mp hd with hhead | htail
        · subst hhead
          cases hbody : body it pred with
          | ok v =>
            rw [hbody] at herr
            simp [okDetail] at herr
          | error e => simp [hbody, errDetail]
        · exact hall d htail herr

/-- A generation call that succeeds. -/
def c1OkGen : BatchItem → Except Str Str := fun _ => .ok "select 2".toList

/-- A try-block body that raises. -/
def c1FailBody : BatchItem → Str → Except Str (Bool × Str × Str) :=
  fun _ _ => .error "exec boom".toList

/-- Witness for `c1_per_question_catch` at a concrete input whose body
raises on each question. -/
theorem c1_per_question_catch_witness :
    (∀ it ∈ [c1Item, c1Item2], (c1OkGen it).isOk = true) ∧
    (∃ ds, evaluateLoop c1OkGen c1FailBody [c1Item, c1Item2] = .ok ds ∧
      ds.length = [c1Item, c1Item2].length ∧
      ∀ d ∈ ds, d.error.isSome = true → d.is_correct = false) :=
  ⟨fun _ _ => rfl,
    c1_per_question_catch c1OkGen c1FailBody [c1Item, c1Item2] (fun _ _ => rfl)⟩

/-- C7: the error classifier assigns exactly one label by the first
matching test in the fixed priority order of the `if/elif` chain —
execution error, empty predicted query, then the case-insensitive
missing-keyword tests JOIN, WHERE, GROUP BY, ORDER BY, strftime (date
function), iif (conditional function), else Other. -/
theorem c7_classifier_priority (e : Bool) (pred gold : Str) :
    (e = true → classify e pred gold = "Execution Error".toList) ∧
    (e = false → pred = [] → classify e pred gold = "Empty Query".toList) ∧
    (e = false → pred ≠ [] →
      missTest "join".toList (lower pred) (lower gold) = true →
      classify e pred gold = "Missing JOIN".toList) ∧
    (e = false → pred ≠ [] →
      missTest "join".toList (lower pred) (lower gold) = false →
      missTest "where".toList (lower pred) (lower gold) = true →
      classify e pred gold = "Missing WHERE".toList) ∧
    (e = false → pred ≠ [] →
      missTest "join".toList (lower pred) (lower gold) = false →
      missTest "where".toList (lower pred) (lower gold) = false →
      missTest "group by".toList (lower pred) (lower gold) = true →
      classify e pred gold = "Missing GROUP BY".toList) ∧
    (e = false → pred ≠ [] →
      missTest "join".toList (lower pred) (lower gold) = false →
      missTest "where".toList (lower pred) (lower gold) = false →
      missTest "group by".toList (lower pred) (lower gold) = false →
      missTest "order by".toList (lower pred) (lower gold) = true →
      classify e pred gold = "Missing ORDER BY".toList) ∧
    (e = false → pred ≠ [] →
      missTest "join".toList (lower pred) (lower gold) = false →
      missTest "where".toList (lower pred) (lower gold) = false →
      missTest "group by".toList (lower pred) (lower gold) = false →
      missTest "order by".toList (lower pred) (lower gold) = false →
      missTest "strftime".toList (lower pred) (lower gold) = true →
      classify e pred gold = "Date Format Error".toList) ∧
    (e = false → pred ≠ [] →
      missTest "join".toList (lower pred) (lower gold) = false →
      missTest "where".toList (lower pred) (lower gold) = false →
      missTest "group by".toList (lower pred) (lower gold) = false →
      missTest "order by".toList (lower pred) (lower gold) = false →
      missTest "strftime".toList (lower pred) (lower gold) = false →
      missTest "iif".toList (lower pred) (lower gold) = true →
      classify e pred gold = "Conditional Logic Error".toList) ∧
    (e = false → pred ≠ [] →
      missTest "join".toList (lower pred) (lower gold) = false →
      missTest "where".toList (lower pred) (lower gold) = false →
      missTest "group by".toList (lower pred) (lower gold) = false →
      missTest "order by".toList (lower pred) (lower gold) = false →
      missTest "strftime".toList (lower pred) (lower gold) = false →
      missTest "iif".toList (lower pred) (lower gold) = false →
      classify e pred gold = "Other".toList) := by
  have hne : pred ≠ [] → (lower pred).isEmpty = false := by
    intro hp
    cases pred with
    | nil => exact absurd rfl hp
    | cons c t => simp [lower]
  refine ⟨?_, ?_, ?_, ?_, ?_, ?_, ?_, ?_, ?_⟩
  · intro he; subst he; simp [classify]
  · intro he hp; subst he; subst hp; simp [classify, lower]
  all_goals (intro he hp; subst he; intros; simp_all [classify, hne hp])

/-- Witness for `c7_classifier_priority`: the spec's classification
scenario — gold with GROUP BY absent from the prediction. -/
theorem c7_classifier_priority_witness :
    ("select * from t".toList ≠ ([] : Str)) ∧
    missTest "group by".toList (lower "select * from t".toList)
      (lower "select dept, count(*) from emp group by dept".toList) = true ∧
    classify false "select * from t".toList
      "select dept, count(*) from emp group by dept".toList =
      "Missing GROUP BY".toList :=
  ⟨by decide, by decide,
    (c7_classifier_priority false "select * from t".toList
        "select dept, count(*) from emp group by dept".toList).2.2.2.2.1
      rfl (by decide) (by decide) (by decide) (by decide)⟩

/-- Truncating a table descriptor's sample rows to the first two. -/
def trunc2 : SchemaVal → SchemaVal
  | .table info => .table ⟨info.columns, info.types, info.sample_data.take 2⟩
  | .fks l => .fks l

/-- A schema with every table's sample rows truncated to the first two. -/
def truncSchema (s : Schema) : Schema := s.map (fun p => (p.1, trunc2 p.2))

lemma take_two_isEmpty (l : List Row) : (l.take 2).isEmpty = l.isEmpty := by
  cases l <;> simp

lemma renderTable_trunc (name : Str) (info : TableInfo) :
    renderTable name ⟨info.columns, info.types, info.sample_data.take 2⟩ =
      renderTable name info := by
  simp [renderTable, sampleSection, sampleLines, take_two_isEmpty, List.take_take]

lemma formatTables_trunc (s : Schema) :
    formatTables (truncSchema s) = formatTables s := by
  induction s with
  | nil => rfl
  | cons q rest ih =>
    obtain ⟨n, v⟩ := q
    by_cases hk : n = fkKey
    · simp [truncSchema, formatTables, hk] at ih ⊢
      exact ih
    · cases v with
      | fks l => simp [truncSchema, formatTables, hk, trunc2]
      | table info =>
        simp [truncSchema, formatTables, hk, trunc2] at ih ⊢
        rw [ih, renderTable_trunc]

lemma pyLookup_truncSchema (k : Str) (s : Schema) :
    pyLookup k (truncSchema s) = (pyLookup k s).map trunc2 := by
  induction s with
  | nil => rfl
  | cons q rest ih =>
    obtain ⟨n, v⟩ := q
    by_cases hk : n = k
    · simp [truncSchema, pyLookup, hk]
    · simp [truncSchema, pyLookup, hk]
      simpa [truncSchema] using ih

lemma fkSection_trunc (s : Schema) : fkSection (truncSchema s) = fkSection s := by
  unfold fkSection
  rw [pyLookup_truncSchema]
  cases hv : pyLookup fkKey s with
  | none => rfl
  | some v => cases v <;> rfl

/-- C8: the formatted output renders at most 2 sample rows per table —
the list of rendered sample lines has length at most 2, and truncating
every table's sample rows to the first two leaves the formatter output
unchanged, however many rows the Schema Model supplies. -/
theorem c8_formatter_two_rows :
    (∀ info : TableInfo, (sampleLines info).length ≤ 2) ∧
    (∀ schema : Schema, format_schema (truncSchema schema) = format_schema schema) := by
  constructor
  · intro info
    simp [sampleLines, List.length_take]
  · intro s
    simp [format_schema, formatTables_trunc, fkSection_trunc]

lemma pyLookup_replace (k : Str) (v : SchemaVal) :
    ∀ d : Schema, d.any (fun p => p.1 = k) = true →
      pyLookup k (d.map (fun p => if p.1 = k then (k, v) else p)) = some v := by
  intro d
  induction d with
  | nil => intro h; simp at h
  | cons q rest ih =>
    obtain ⟨qk, qv⟩ := q
    intro h
    by_cases hq : qk = k
    · subst hq
      rw [List.map_cons, if_pos (show (qk, qv).1 = qk from rfl)]
      simp only [pyLookup, if_pos rfl, if_true]
    · have h' : rest.any (fun p => p.1 = k) = true := by
        simp only [List.any_cons, Bool.or_eq_true, decide_eq_true_eq] at h
        tauto
      have hneg : ¬((qk, qv).1 = k) := hq
      rw [List.map_cons, if_neg hneg]
      simp only [pyLookup]
      rw [if_neg hq]
      exact ih h'

lemma pyLookup_append_last (k : Str) (v : SchemaVal) :
    ∀ d : Schema, d.any (fun p => p.1 = k) = false →
      pyLookup k (d ++ [(k, v)]) = some v := by
  intro d
  induction d with
  | nil => intro _; simp [pyLookup]
  | cons q rest ih =>
    obtain ⟨qk, qv⟩ := q
    intro h
    simp only [List.any_cons, Bool.or_eq_false_iff, decide_eq_false_iff_not] at h
    obtain ⟨hq, hrest⟩ := h
    rw [List.cons_append]
    simp only [pyLookup]
    rw [if_neg hq]
    exact ih hrest

lemma pyLookup_dictInsert_self (k : Str) (v : SchemaVal) (d : Schema) :
    pyLookup k (dictInsert k v d) = some v := by
  unfold dictInsert
  cases h : d.any (fun p => p.1 = k) with
  | true => simp [h, pyLookup_replace k v d h]
  | false => simp [h, pyLookup_append_last k v d h]

lemma mem_dictInsert_self_key (k : Str) (v : SchemaVal) (d : Schema) :
    ∀ p ∈ dictInsert k v d, p.1 = k → p.2 = v := by
  unfold dictInsert
  intro p hp hk
  by_cases h : d.any (fun q => q.1 = k) = true
  · rw [if_pos h] at hp
    rw [List.mem_map] at hp
    obtain ⟨q, _, hpq⟩ := hp
    by_cases hq : q.1 = k
    · rw [if_pos hq] at hpq
      rw [← hpq]
    · rw [if_neg hq] at hpq
      rw [← hpq] at hk
      exact absurd hk hq
  · rw [if_neg h] at hp
    rcases List.mem_append.mp hp with hd | hone
    · exfalso
      apply h
      rw [List.any_eq_true]
      exact ⟨p, hd, by simp [hk]⟩
    · rw [List.mem_singleton.mp hone]

lemma formatTables_filter (d : Schema) :
    formatTables d = formatTables (d.filter (fun p => !decide (p.1 = fkKey))) := by
  induction d with
  | nil => rfl
  | cons q rest ih =>
    obtain ⟨n, v⟩ := q
    by_cases hk : n = fkKey
    · simp [formatTables, List.filter, hk]
      exact ih
    · cases v with
      | fks l => simp [formatTables, List.filter, hk]
      | table info => simp [formatTables, List.filter, hk, ih]

/-- C10: the mapping built by `load_schema` binds the key `foreign_keys`
to the collected edge list; no entry with that key can carry a table
descriptor (a table literally named `foreign_keys` is overwritten); and
the per-table rendering of `format_schema` ignores every entry with that
name. -/
theorem c10_foreign_keys_key (db : DBModel) :
    pyLookup fkKey (load_schema db) = some (.fks (collectFks db)) ∧
    (load_schema db).all
      (fun p => !(decide (p.1 = fkKey) && p.2.isTable)) = true ∧
    ∀ d : Schema,
      formatTables d = formatTables (d.filter (fun p => !decide (p.1 = fkKey))) := by
  refine ⟨?_, ?_, formatTables_filter⟩
  · exact pyLookup_dictInsert_self fkKey _ _
  · rw [List.all_eq_true]
    intro p hp
    by_cases hk : p.1 = fkKey
    · have hv := mem_dictInsert_self_key fkKey (.fks (collectFks db)) _ p hp hk
      simp [hk, hv, SchemaVal.isTable]
    · simp [hk]

/-! ### String lemmas for the SQL extractor -/

lemma isPrefixOf_self_append (l t : Str) : l.isPrefixOf (l ++ t) = true := by
  induction l with
  | nil => simp [List.isPrefixOf]
  | cons c cs ih => simp [List.isPrefixOf, ih]

lemma splitFirst_self_append (pat : Str) (hne : pat ≠ []) (t : Str) :
    splitFirst pat (pat ++ t) = some ([], t) := by
  obtain ⟨p, ps, hp⟩ := List.exists_cons_of_ne_nil hne
  subst hp
  rw [List.cons_append]
  simp only [splitFirst]
  rw [if_pos (by rw [← List.cons_append]; exact isPrefixOf_self_append (p :: ps) t)]
  rw [← List.cons_append, List.drop_left]

lemma isPrefixOf_cons_of_not_mem {pat : Str} {c : Char} (hc : c ∉ pat) (hne : pat ≠ [])
    (Y : Str) : pat.isPrefixOf (c :: Y) = false := by
  obtain ⟨p, ps, hp⟩ := List.exists_cons_of_ne_nil hne
  subst hp
  have hpc : ¬(p = c) := fun h => hc (by rw [← h]; exact List.mem_cons_self p ps)
  simp [List.isPrefixOf, hpc]

lemma isPrefixOf_append_nl :
    ∀ pat : Str, ('\n' : Char) ∉ pat →
      ∀ s t : Str, pat.isPrefixOf (s ++ '\n' :: t) = true →
        pat.isPrefixOf s = true := by
  intro pat
  induction pat with
  | nil => intro _ s t _; simp [List.isPrefixOf]
  | cons p ps ih =>
    intro hnl s t h
    cases s with
    | nil =>
      exfalso
      rw [List.nil_append] at h
      simp [List.isPrefixOf] at h
      exact hnl (by rw [h.1]; exact List.mem_cons_self '\n' ps)
    | cons c s' =>
      rw [List.cons_append] at h
      simp only [List.isPrefixOf, Bool.and_eq_true] at h ⊢
      exact ⟨h.1, ih (fun hm => hnl (List.mem_cons_of_mem p hm)) s' t h.2⟩

lemma splitFirst_cons_none {pat : Str} {c : Char} {Q : Str}
    (h : splitFirst pat (c :: Q) = none) :
    pat.isPrefixOf (c :: Q) = false ∧ splitFirst pat Q = none := by
  cases hb : pat.isPrefixOf (c :: Q) with
  | true => simp [splitFirst, hb] at h
  | false =>
    refine ⟨rfl, ?_⟩
    cases hs : splitFirst pat Q with
    | none => rfl
    | some pr =>
      obtain ⟨x, y⟩ := pr
      simp [splitFirst, hb, hs] at h

lemma splitFirst_cons_none_intro {pat : Str} {c : Char} {Q : Str}
    (hp : pat.isPrefixOf (c :: Q) = false) (h : splitFirst pat Q = none) :
    splitFirst pat (c :: Q) = none := by
  simp [splitFirst, hp, h]

/-- The leftmost-match behaviour of the closing-fence search: with no
occurrence of `pat` inside `Q`, and `pat` free of newlines, the first
occurrence of `pat` in `Q ++ '\n' :: pat ++ b` is the explicit one. -/
lemma splitFirst_sep (pat : Str) (hnl : ('\n' : Char) ∉ pat) (hne : pat ≠ []) (b : Str) :
    ∀ Q : Str, splitFirst pat Q = none →
      splitFirst pat (Q ++ '\n' :: (pat ++ b)) = some (Q ++ ['\n'], b) := by
  intro Q
  induction Q with
  | nil =>
    intro _
    rw [List.nil_append]
    have hp : pat.isPrefixOf ('\n' :: (pat ++ b)) = false :=
      isPrefixOf_cons_of_not_mem hnl hne _
    simp only [splitFirst]
    rw [if_neg (by simp [hp]), splitFirst_self_append pat hne b]
    simp
  | cons c Q' ih =>
    intro h
    obtain ⟨hp, h'⟩ := splitFirst_cons_none h
    have hih := ih h'
    rw [List.cons_append]
    have hp2 : pat.isPrefixOf (c :: (Q' ++ '\n' :: (pat ++ b))) = false := by
      cases hb : pat.isPrefixOf (c :: (Q' ++ '\n' :: (pat ++ b))) with
      | false => rfl
      | true =>
        exfalso
        have hfront := isPrefixOf_append_nl pat hnl (c :: Q') (pat ++ b)
          (by rw [List.cons_append]; exact hb)
        rw [hfront] at hp
        cases hp
    simp only [splitFirst]
    rw [if_neg (by simp [hp2]), hih]
    simp

/-- The fenced-block extraction on a well-formed wrap: the opener anchors at
position 0 and the content runs to the first closing fence. -/
lemma extract_fence_wrap (Q b : Str) (h : splitFirst fenceClose Q = none) :
    extract_fence (fenceOpen ++ '\n' :: (Q ++ '\n' :: (fenceClose ++ b))) =
      some (pyStrip ('\n' :: (Q ++ ['\n']))) := by
  unfold extract_fence
  rw [splitFirst_self_append fenceOpen (by decide) _]
  have hQ : splitFirst fenceClose ('\n' :: Q) = none :=
    splitFirst_cons_none_intro
      (isPrefixOf_cons_of_not_mem (by decide) (by decide) Q) h
  have hsep := splitFirst_sep fenceClose (by decide) (by decide) b ('\n' :: Q) hQ
  rw [List.cons_append] at hsep
  dsimp only
  rw [hsep]
  rfl

lemma ltrim_cons_ws {c : Char} (h : pyWS c = true) (s : Str) :
    ltrim (c :: s) = ltrim s := by
  simp [ltrim, List.dropWhile_cons, h]

lemma rtrim_append_ws {c : Char} (h : pyWS c = true) (s : Str) :
    rtrim (s ++ [c]) = rtrim s := by
  simp [rtrim, List.dropWhile_cons, h]

lemma pyStrip_cons_ws {c : Char} (h : pyWS c = true) (s : Str) :
    pyStrip (c :: s) = pyStrip s := by
  simp [pyStrip, ltrim_cons_ws h]

lemma pyStrip_append_ws {c : Char} (h : pyWS c = true) (s : Str) :
    pyStrip (s ++ [c]) = pyStrip s := by
  induction s with
  | nil => simp [pyStrip, ltrim, rtrim, List.dropWhile_cons, h]
  | cons d s' ih =>
    by_cases hd : pyWS d = true
    · rw [List.cons_append, pyStrip_cons_ws hd, pyStrip_cons_ws hd]
      exact ih
    · have hd' : pyWS d = false := by
        cases hds : pyWS d with
        | false => rfl
        | true => exact absurd hds hd
      have hl1 : ltrim (d :: (s' ++ [c])) = d :: (s' ++ [c]) := by
        simp [ltrim, List.dropWhile_cons, hd']
      have hl2 : ltrim (d :: s') = d :: s' := by
        simp [ltrim, List.dropWhile_cons, hd']
      rw [List.cons_append]
      unfold pyStrip
      rw [hl1, hl2, ← List.cons_append]
      exact rtrim_append_ws h (d :: s')

lemma pyStrip_wrap (Q : Str) : pyStrip ('\n' :: (Q ++ ['\n'])) = pyStrip Q := by
  rw [pyStrip_cons_ws (by decide), pyStrip_append_ws (by decide)]

/-- C5 counterexample: for a SQL string containing the fence marker itself,
wrapping it in a fenced block and extracting does not return the stripped
string — the non-greedy match stops at the inner marker. -/
theorem c5_counterexample :
    extract_sql ("```sql\n".toList ++ "SELECT 1 ``` x".toList ++ "\n```".toList) ≠
      pyStrip "SELECT 1 ``` x".toList := by decide

/-- C5 (amended): for any SQL string `Q` that does not contain the fence
marker, extracting from text that opens with a SQL fenced block wrapping
`Q` returns `Q` stripped of surrounding whitespace, whatever follows the
block — in particular, with several fenced blocks only the first is
returned. -/
theorem c5_first_fenced_block (Q b : Str) (h : containsSub Q fenceClose = false) :
    extract_sql (fenceOpen ++ '\n' :: (Q ++ '\n' :: (fenceClose ++ b))) = pyStrip Q := by
  have hnone : splitFirst fenceClose Q = none := by
    unfold containsSub at h
    cases hs : splitFirst fenceClose Q with
    | none => rfl
    | some pr => rw [hs] at h; simp at h
  have hf := extract_fence_wrap Q b hnone
  unfold extract_sql
  rw [hf, pyStrip_wrap]

/-- Witness for `c5_first_fenced_block` at a concrete SQL string. -/
theorem c5_first_fenced_block_witness :
    containsSub "SELECT 42".toList fenceClose = false ∧
    extract_sql (fenceOpen ++ '\n' :: ("SELECT 42".toList ++ '\n' :: (fenceClose ++ []))) =
      pyStrip "SELECT 42".toList :=
  ⟨by decide, c5_first_fenced_block "SELECT 42".toList [] (by decide)⟩

lemma scanSql_nil_of_no_select (ls : List Str)
    (h : ∀ l ∈ ls, selectKw.isPrefixOf (upper (pyStrip l)) = false) :
    scanSql ls false = [] := by
  induction ls with
  | nil => rfl
  | cons l rest ih =>
    have hl := h l (List.mem_cons_self l rest)
    simp only [scanSql, hl, Bool.or_self, Bool.false_eq_true, if_false]
    exact ih (fun x hx => h x (List.mem_cons_of_mem l hx))

/-- C6: the extractor is total by construction; on text with no fenced
block and no line whose trimmed uppercased form starts with SELECT it
returns the input unchanged, and empty input yields empty output. -/
theorem c6_fallback_identity (text : Str)
    (hfence : extract_fence text = none)
    (hsel : ∀ l ∈ splitNL text, selectKw.isPrefixOf (upper (pyStrip l)) = false) :
    extract_sql text = text ∧ extract_sql [] = [] := by
  refine ⟨?_, by decide⟩
  unfold extract_sql
  rw [hfence, scanSql_nil_of_no_select _ hsel]
  rfl

/-- Witness for `c6_fallback_identity` at a concrete input. -/
theorem c6_fallback_identity_witness :
    extract_fence "hello\nworld".toList = none ∧
    (∀ l ∈ splitNL "hello\nworld".toList,
      selectKw.isPrefixOf (upper (pyStrip l)) = false) ∧
    extract_sql "hello\nworld".toList = "hello\nworld".toList :=
  ⟨by decide, by decide,
    (c6_fallback_identity "hello\nworld".toList (by decide) (by decide)).1⟩

end BirdSql
